import Mathlib

/-!
Verification of the weekly-roster Streamlit application (src/app.py).

The file shallowly embeds the Python program: each definition mirrors the
source function of the same name (line references are given in the doc
comments).  Python strings are Lean strings manipulated through their
character lists; Python floats are modelled as exact decimal rationals
(an integer numerator with a power-of-ten denominator), with numeric
equality as cross multiplication; a Python value that can sit in a
spreadsheet cell or dataframe cell is a member of the inductive `PyVal`.
Library behaviour that the source calls into (str.lower, str.strip,
float(), sorted(), dict insertion, re substring search) is implemented
here over those representations, restricted to the ASCII conventions the
roster data uses; the doc comment of each such helper records the
restriction.
-/

/-! ## Python string primitives -/

/-- Lower-casing of one character, as Python str.lower acts on the ASCII
range.  The roster headers are Korean or ASCII, where Python and this
model agree. -/
def pyCharLower (c : Char) : Char :=
  if 'A' ≤ c ∧ c ≤ 'Z' then Char.ofNat (c.toNat + 32) else c

/-- Model of Python str.lower. -/
def pyLower (s : String) : String := ⟨s.data.map pyCharLower⟩

/-- Whitespace characters removed by Python str.strip (ASCII subset). -/
def isPySpace (c : Char) : Bool := c = ' ' ∨ c = '\t' ∨ c = '\n' ∨ c = '\r'

/-- Model of Python str.strip(). -/
def pyStrip (s : String) : String :=
  ⟨((s.data.dropWhile isPySpace).reverse.dropWhile isPySpace).reverse⟩

/-- Whether the first list is an initial segment of the second. -/
def leadsWith : List Char → List Char → Bool
  | [], _ => true
  | _ :: _, [] => false
  | a :: t, b :: u => decide (a = b) && leadsWith t u

/-- Whether `needle` occurs contiguously inside the second list; used to
model `re.search` of an escaped pattern. -/
def containsSeq (needle : List Char) : List Char → Bool
  | [] => needle.isEmpty
  | c :: t => leadsWith needle (c :: t) || containsSeq needle t

/-- Whether the char list `s` ends with `suff`; models str.endswith. -/
def endsWithSeq (s suff : List Char) : Bool := leadsWith suff.reverse s.reverse

/-- Code-point lexicographic comparison of char lists, the order Python
uses to compare strings. -/
def listLe : List Char → List Char → Bool
  | [], _ => true
  | _ :: _, [] => false
  | a :: t, b :: u => decide (a < b) || (decide (a = b) && listLe t u)

/-- String comparison by code points, as in Python. -/
def pyStrLe (a b : String) : Bool := listLe a.data b.data

/-- Insertion step of the sort used to model Python sorted(). -/
def insertSorted (x : String) : List String → List String
  | [] => [x]
  | y :: t => if pyStrLe x y then x :: y :: t else y :: insertSorted x t

/-- Model of Python sorted() on strings: ascending code-point order. -/
def sortStrs : List String → List String
  | [] => []
  | x :: t => insertSorted x (sortStrs t)

/-- Replacement of every non-overlapping occurrence of `needle` by
`repl`, scanning left to right; the fuel argument is the length of the
scanned list, so it never runs out. -/
def replSeq (needle repl : List Char) : Nat → List Char → List Char
  | _, [] => []
  | 0, l => l
  | fuel + 1, c :: t =>
    if leadsWith needle (c :: t) && !needle.isEmpty then
      repl ++ replSeq needle repl fuel ((c :: t).drop needle.length)
    else
      c :: replSeq needle repl fuel t

/-- Model of Python str.replace (all occurrences).  The source only uses
non-empty needles, for which this agrees with Python. -/
def pyReplace (s old new : String) : String :=
  ⟨replSeq old.data new.data s.data.length s.data⟩

/-- Splitting on a one-character separator; models str.split(sep) for the
single use `usecols_range.split(":")`. -/
def splitOnChar (sep : Char) (s : String) : List String :=
  let parts := s.data.foldr
    (fun c acc => if c = sep then [] :: acc else (c :: acc.headD []) :: acc.tail) [[]]
  parts.map (fun l => ⟨l⟩)

/-! ## Python numbers and cell values -/

/-- Exact decimal rational standing in for a Python float: the value is
`num / den`.  Every literal the parser below produces has a power-of-ten
denominator.  Binary float rounding is not modelled: on the roster's
integral marks the two agree exactly. -/
structure PyNum where
  num : Int
  den : Nat
  deriving DecidableEq, Repr

/-- Numeric (value) equality of two `PyNum`s, by cross multiplication;
this is the `==` of Python floats. -/
def pyNumEq (a b : PyNum) : Bool :=
  decide (a.num * (b.den : Int) = b.num * (a.den : Int))

def pyZero : PyNum := ⟨0, 1⟩

def pyOne : PyNum := ⟨1, 1⟩

/-- A value held in a worksheet cell or dataframe cell: Python None, a
pandas NaN, a number, or a string.  Dates and booleans do not occur in
the claims' scope; both would fail the numeric parse below exactly as a
non-numeric string does. -/
inductive PyVal where
  | noneV
  | nan
  | num (q : PyNum)
  | str (s : String)
  deriving DecidableEq, Repr

/-- Model of pandas `pd.isna`: true exactly on None and NaN. -/
def pd_isna : PyVal → Bool
  | .noneV => true
  | .nan => true
  | _ => false

/-- Model of Python str() on a cell value, needed for
`str(c).strip()` on column labels (src/app.py line 252).  Numbers are
rendered only schematically (the claims never compare a numeric label
with a string candidate); strings render as themselves, which is the
case the program exercises. -/
def pyStr : PyVal → String
  | .noneV => "None"
  | .nan => "nan"
  | .num q => toString q.num ++ "/" ++ toString q.den
  | .str s => s

/-- Digit-list value, most significant first. -/
def digitsToNat (ds : List Char) : Nat :=
  ds.foldl (fun a c => a * 10 + (c.toNat - 48)) 0

/-- Model of Python float() applied to an already stripped string:
optional sign, integer digits, optional fractional part, optional
exponent, at least one mantissa digit, nothing left over.  The spellings
"inf"/"nan" and digit-group underscores that float() also accepts are
not modelled; they could never compare equal to 0.0 or 1.0, the only
uses the program makes of the result. -/
def pyFloatOfStr (s : String) : Option PyNum :=
  let cs := s.data
  let sgn : Int := if cs.headD ' ' = '-' then -1 else 1
  let cs1 := if cs.headD ' ' = '-' ∨ cs.headD ' ' = '+' then cs.tail else cs
  let ip := cs1.takeWhile Char.isDigit
  let cs2 := cs1.dropWhile Char.isDigit
  let fp := if cs2.headD ' ' = '.' then cs2.tail.takeWhile Char.isDigit else []
  let cs3 := if cs2.headD ' ' = '.' then cs2.tail.dropWhile Char.isDigit else cs2
  if ip.isEmpty && fp.isEmpty then none
  else
    let mantNum : Int := sgn * ((digitsToNat ip * 10 ^ fp.length + digitsToNat fp : Nat) : Int)
    let mantDen : Nat := 10 ^ fp.length
    match cs3 with
    | [] => some ⟨mantNum, mantDen⟩
    | e :: t =>
      if e = 'e' ∨ e = 'E' then
        let esgn : Bool := t.headD ' ' = '-'
        let t1 := if t.headD ' ' = '-' ∨ t.headD ' ' = '+' then t.tail else t
        let ed := t1.takeWhile Char.isDigit
        let rest := t1.dropWhile Char.isDigit
        if ed.isEmpty || !rest.isEmpty then none
        else
          let k := digitsToNat ed
          if esgn then some ⟨mantNum, mantDen * 10 ^ k⟩
          else some ⟨mantNum * (10 ^ k : Nat), mantDen⟩
      else none

/-- Model of the Python expression `float(str(x).strip())`, returning
`none` where Python raises.  On a float input, str() and float() round
trip to the same value, so the number itself is returned; None
stringifies to "None" and NaN has no rational value, and both fail every
numeric comparison the program performs, so both map to `none`. -/
def pyFloatStrStrip : PyVal → Option PyNum
  | .noneV => none
  | .nan => none
  | .num q => some q
  | .str s => pyFloatOfStr (pyStrip s)

/-! ## Utility functions of src/app.py -/

/-- Fixed configuration of src/app.py lines 20-29. -/
def DATA_DIR : String := "./data"

def TARGET_SUM_ROW : Nat := 174

def USECOLS_RANGE : String := "A:AG"

def CANDIDATE_CLASS_COLS : List String := ["반", "학급", "Class"]

def CANDIDATE_NO_COLS : List String := ["번호", "번", "No"]

def CANDIDATE_NAME_COLS : List String := ["이름", "성명", "Name"]

/-- Model of `normalize_text` (src/app.py lines 51-53).  The library
call `unicodedata.normalize("NFC", ...)` is passed in as the function
`nfc`; `none` models the Python `None` argument, `some v` any other
value, stringified by `pyStr`. -/
def normalize_text (nfc : String → String) : Option PyVal → String
  | Option.none => ""
  | some v => nfc (pyStr v)

/-- One insertion into a Python dict modelled as an association list:
an existing key keeps its position and gets the new value, a new key is
appended. -/
def dictInsert (d : List (String × PyNum)) (k : String) (v : PyNum) :
    List (String × PyNum) :=
  if d.any (fun p => p.1 = k) then
    d.map (fun p => if p.1 = k then (k, v) else p)
  else d ++ [(k, v)]

/-- Lookup in the association-list dict. -/
def dictFind (d : List (String × PyNum)) (k : String) : Option PyNum :=
  (d.find? (fun p => decide (p.1 = k))).map (fun p => p.2)

/-- String-valued dict used by `find_col` for the lower-cased label
index; same Python dict semantics as `dictInsert`. -/
def dictInsertS (d : List (String × String)) (k v : String) :
    List (String × String) :=
  if d.any (fun p => p.1 = k) then
    d.map (fun p => if p.1 = k then (k, v) else p)
  else d ++ [(k, v)]

def dictFindS (d : List (String × String)) (k : String) : Option String :=
  (d.find? (fun p => decide (p.1 = k))).map (fun p => p.2)

/-- The dict comprehension of src/app.py line 58:
lower-cased label to label, a later duplicate overwriting the value. -/
def lowerColsDict (df_cols : List String) : List (String × String) :=
  df_cols.foldl (fun m c => dictInsertS m (pyLower c) c) []

/-- Case-insensitive substring test: models
`re.compile(re.escape(cand), re.IGNORECASE).search(str(c))`
(src/app.py lines 66-68) for ASCII/Korean labels. -/
def containsCI (c cand : String) : Bool :=
  containsSeq (pyLower cand).data (pyLower c).data

/-- Model of `find_col` (src/app.py lines 56-70): exact lower-cased
match through the dict first, candidate by candidate, then first
case-insensitive substring match in candidate-then-column order. -/
def find_col (df_cols : List String) (candidates : List String) : Option String :=
  match candidates.findSome? (fun cand => dictFindS (lowerColsDict df_cols) (pyLower cand)) with
  | some c => some c
  | Option.none => candidates.findSome? (fun cand => df_cols.find? (fun c => containsCI c cand))

/-- Model of `is_one` (src/app.py lines 73-80): false on NA values,
otherwise whether `float(str(x).strip())` parses and equals 1.0. -/
def is_one (x : PyVal) : Bool :=
  if pd_isna x then false
  else
    match pyFloatStrStrip x with
    | some v => pyNumEq v pyOne
    | Option.none => false

/-- Model of openpyxl `column_index_from_string`: "A" is 1, "AG" is 33. -/
def column_index_from_string (s : String) : Nat :=
  s.data.foldl (fun a c => a * 26 + (c.toNat - 64)) 0

/-- The numeric conversion of src/app.py lines 100-103:
`float(str(v).strip())` with 0.0 substituted when that raises. -/
def cellNumOrZero (v : PyVal) : PyNum := (pyFloatStrStrip v).getD pyZero

/-- A worksheet as openpyxl presents it after the sheet of the call has
been selected (src/app.py lines 88-91 always resolve to the first
sheet): `cell r c` is the value of row `r`, column `c`, both 1-based. -/
structure Worksheet where
  cell : Nat → Nat → PyVal

/-- Model of `read_excel_row_values_for_headers` (src/app.py lines
83-107): convert the target-row cells of the `usecols` letter range to
numbers with 0.0 fallback and build the Python dict from the first
`min(len(headers), len(vals))` headers to those numbers. -/
def read_excel_row_values_for_headers (ws : Worksheet) (usecols_range : String)
    (target_row : Nat) (headers : List String) : List (String × PyNum) :=
  let parts := splitOnChar ':' usecols_range
  let start_idx := column_index_from_string (parts.getD 0 "")
  let end_idx := column_index_from_string (parts.getD 1 "")
  let vals := (List.range (end_idx + 1 - start_idx)).map
    (fun k => cellNumOrZero (ws.cell target_row (start_idx + k)))
  let n := min headers.length vals.length
  (List.range n).foldl
    (fun d i => dictInsert d (headers.getD i "") (vals.getD i pyZero)) []

/-! ## Export builders of src/app.py -/

/-- Call of `normalize_text` on an argument that is already a string. -/
def normStr (nfc : String → String) (s : String) : String :=
  normalize_text nfc (some (.str s))

/-- The fixed header row of the formatted sheet (src/app.py line 129). -/
def excelHeaders : List String := ["순번", "반", "번호", "이름", "월", "화", "수", "목", "금"]

/-- The value-bearing cell writes of the data loop of
`build_formatted_excel` (src/app.py lines 153-159): for the row with
0-based position `i`, the running number `i+1` in column 1 and the first
three row values in columns 2-4; the weekday columns 5-9 receive font
and border but never a value. -/
def dataCells : Nat → List (List PyVal) → List (Nat × Nat × PyVal)
  | _, [] => []
  | i, row :: rest =>
    (4 + i, 1, PyVal.num ⟨(i + 1 : Nat), 1⟩) ::
    (4 + i, 2, row.getD 0 .nan) ::
    (4 + i, 3, row.getD 1 .nan) ::
    (4 + i, 4, row.getD 2 .nan) :: dataCells (i + 1) rest

/-- A workbook as far as the claims observe it: sheet title, the list of
value-bearing cell writes (row, column, value), and the merged ranges.
Styling (fonts, borders, widths, heights) is not modelled. -/
structure XlsxModel where
  sheetTitle : String
  cells : List (Nat × Nat × PyVal)
  merges : List (Nat × Nat × Nat × Nat)
  deriving DecidableEq, Repr

/-- The value of cell (r, c): the unique write to that address, if any;
an address never written holds an empty cell. -/
def XlsxModel.cellValue (wb : XlsxModel) (r c : Nat) : Option PyVal :=
  (wb.cells.find? (fun t => decide (t.1 = r) && decide (t.2.1 = c))).map (fun t => t.2.2)

/-- Model of `build_formatted_excel` (src/app.py lines 118-186).  The
source indexes each dataframe row with `row.iloc[0..2]`, which raises
IndexError on a row of fewer than three cells: that abnormal exit is the
`none` result. -/
def build_formatted_excel (nfc : String → String) (df_view : List (List PyVal))
    (file_choice : String) (filter_col : String) : Option XlsxModel :=
  if df_view.any (fun r => decide (r.length < 3)) then none
  else
    let title_text := pyStrip (pyReplace file_choice ".xlsx" "" ++ " " ++ filter_col)
    let title := normStr nfc title_text
    some { sheetTitle := "필터결과",
           cells := (1, 1, PyVal.str title) ::
             ((List.range 9).map (fun j => (3, j + 1, PyVal.str (excelHeaders.getD j "")))
               ++ dataCells 0 df_view),
           merges := [(1, 1, 1, 9)] }

/-- A PDF document as far as the claims observe it. -/
structure PdfModel where
  title : String
  tableData : Option (List (List PyVal))
  deriving DecidableEq, Repr

/-- Model of `build_pdf` (src/app.py lines 189-218).  The function is
defined in the source but never called from the page script.  The
trailing timestamp paragraph is not modelled. -/
def build_pdf (nfc : String → String) (df_cols : List String)
    (df_rows : List (List PyVal)) (file_choice : String) (filter_col : String) : PdfModel :=
  { title := "필터 결과 (" ++ normStr nfc filter_col ++ " == 1) — " ++ normStr nfc file_choice,
    tableData :=
      if df_rows.isEmpty then none
      else some ((df_cols.map PyVal.str) :: df_rows) }

/-! ## The page script (src/app.py lines 224-349) -/

/-- Blocking I/O actions the script performs, in order. -/
inductive IOEvent where
  | makedirs (dir : String)
  | listdir (dir : String)
  | readPandas (path : String)
  | readOpenpyxl (path : String)
  deriving DecidableEq, Repr

/-- A download offered on the page, with the bytes it would serve. -/
inductive ExportEntry where
  | excel (fileName : String) (wb : XlsxModel)
  | pdf (fileName : String) (d : PdfModel)
  deriving DecidableEq, Repr

def ExportEntry.isPdf : ExportEntry → Bool
  | .pdf _ _ => true
  | _ => false

def ExportEntry.isExcel : ExportEntry → Bool
  | .excel _ _ => true
  | _ => false

/-- Everything a completed page render shows. -/
structure Page where
  fileChoice : String
  cols : List String
  rowsAll : List (List PyVal)
  subjectChoices : List String
  fallbackWarned : Bool
  filterCol : String
  dfOneRows : List (List PyVal)
  displayCols : List String
  noDisplayWarned : Bool
  viewCols : List String
  viewRows : List (List PyVal)
  previewRows : List (List PyVal)
  exports : List ExportEntry
  deriving DecidableEq, Repr

/-- Outcome of one script run: an early `st.stop` with the no-files
error, an early `st.stop` after a load failure, an uncaught exception,
or a fully rendered page. -/
inductive RunResult where
  | stopNoFiles
  | stopLoadError (msg : String)
  | crashed
  | page (p : Page)
  deriving DecidableEq, Repr

def RunResult.pageOf : RunResult → Option Page
  | .page p => some p
  | _ => Option.none

/-- One user interaction, as the environment presents it to the script:
the directory listing, the selectbox positions the user picks, the
outcome pandas reports for the parse of the chosen file (raw header-row
cells and data rows of the A:AG, header=1 read), and the worksheet
openpyxl hands back for the same file. -/
structure RunInput where
  dirEntries : List String
  fileIdx : Nat
  loadResult : Except String (List PyVal × List (List PyVal))
  ws : Worksheet
  subjectIdx : Nat

/-- The dataframe columns after src/app.py line 252:
`[str(c).strip() for c in df.columns]`. -/
def pandasCols (rawCols : List PyVal) : List String :=
  rawCols.map (fun c => pyStrip (pyStr c))

/-- The directory entries kept by src/app.py line 225: name ends in
".xlsx" or ".xls" after lower-casing. -/
def excel_files (entries : List String) : List String :=
  entries.filter (fun f =>
    endsWithSeq (pyLower f).data ".xlsx".data || endsWithSeq (pyLower f).data ".xls".data)

/-- src/app.py line 226: `sorted(excel_files)`. -/
def excel_files_sorted (entries : List String) : List String :=
  sortStrs (excel_files entries)

/-- The set (kept as a list) of src/app.py line 262: detected class,
number and name columns, the undetected ones dropped. -/
def blocked_cols (cols : List String) : List String :=
  [find_col cols CANDIDATE_CLASS_COLS, find_col cols CANDIDATE_NO_COLS,
   find_col cols CANDIDATE_NAME_COLS].filterMap id

/-- The call of src/app.py lines 264-270. -/
def sum_map_174 (ws : Worksheet) (cols : List String) : List (String × PyNum) :=
  read_excel_row_values_for_headers ws USECOLS_RANGE TARGET_SUM_ROW cols

/-- src/app.py line 271: the column names whose row-174 number equals
0.0. -/
def zero_sum_cols (ws : Worksheet) (cols : List String) : List String :=
  ((sum_map_174 ws cols).filter (fun p => pyNumEq p.2 pyZero)).map (fun p => p.1)

/-- src/app.py line 273: columns neither blocked nor zero-sum. -/
def filterable_cols_raw (ws : Worksheet) (cols : List String) : List String :=
  cols.filter (fun c =>
    !((blocked_cols cols).any (fun b => decide (b = c))) &&
    !((zero_sum_cols ws cols).any (fun z => decide (z = c))))

/-- src/app.py lines 274-275: all columns are offered (with a warning)
when the raw list is empty. -/
def filterable_cols (ws : Worksheet) (cols : List String) : List String :=
  if (filterable_cols_raw ws cols).isEmpty then cols else filterable_cols_raw ws cols

/-- Position of a column label, as pandas resolves a unique label. -/
def pyColIdx (cols : List String) (c : String) : Nat :=
  cols.findIdx (fun x => decide (x = c))

/-- src/app.py lines 294-295: the rows of `df[df[filter_col].apply(is_one)]`. -/
def df_one_rows (cols : List String) (rows : List (List PyVal)) (fcol : String) :
    List (List PyVal) :=
  rows.filter (fun r => is_one (r.getD (pyColIdx cols fcol) .nan))

/-- src/app.py lines 297-301: display columns present in the dataframe,
after the `or`-defaults for undetected ones. -/
def display_cols_of (cols : List String) : List String :=
  [(find_col cols CANDIDATE_CLASS_COLS).getD "반",
   (find_col cols CANDIDATE_NO_COLS).getD "번호",
   (find_col cols CANDIDATE_NAME_COLS).getD "이름"].filter
    (fun c => cols.any (fun x => decide (x = c)))

/-- Column positions pandas selects for `df_one[display_cols]`: for each
label in order, every position carrying that label. -/
def select_idxs (cols : List String) (dcols : List String) : List Nat :=
  dcols.flatMap (fun l => (List.range cols.length).filter (fun i => decide (cols.getD i "" = l)))

def view_cols (cols : List String) (dcols : List String) : List String :=
  (select_idxs cols dcols).map (fun i => cols.getD i "")

def view_rows (cols : List String) (dcols : List String) (rows : List (List PyVal)) :
    List (List PyVal) :=
  rows.map (fun r => (select_idxs cols dcols).map (fun i => r.getD i .nan))

/-- src/app.py line 345: download file name. -/
def export_file_name (nfc : String → String) (file_choice filter_col : String) : String :=
  pyReplace (normStr nfc file_choice) ".xlsx" "" ++ "_" ++ normStr nfc filter_col ++ ".xlsx"

/-- The part of the script after a successful load (src/app.py lines
252-349).  A selectbox with no options hands `None` on, and a duplicated
column label makes `df[filter_col]` a dataframe on which `is_one`
raises; both are uncaught exceptions, modelled as `crashed`, as is the
IndexError of `build_formatted_excel` on a narrow dataframe. -/
def afterLoad (nfc : String → String) (ws : Worksheet) (subjectIdx : Nat)
    (file_choice : String) (rawCols : List PyVal) (rawRows : List (List PyVal)) : RunResult :=
  let cols := pandasCols rawCols
  let filterable := filterable_cols ws cols
  if filterable.isEmpty then .crashed
  else
    let filter_col := filterable.getD (subjectIdx % filterable.length) ""
    if cols.countP (fun x => decide (x = filter_col)) ≠ 1 then .crashed
    else
      let dOne := df_one_rows cols rawRows filter_col
      let dcols := display_cols_of cols
      if dcols.isEmpty then
        match build_formatted_excel nfc dOne file_choice filter_col with
        | Option.none => .crashed
        | some wb => .page {
            fileChoice := file_choice, cols := cols, rowsAll := rawRows,
            subjectChoices := filterable,
            fallbackWarned := (filterable_cols_raw ws cols).isEmpty,
            filterCol := filter_col, dfOneRows := dOne,
            displayCols := [], noDisplayWarned := true,
            viewCols := cols, viewRows := dOne,
            previewRows := dOne.take 20,
            exports := [.excel (export_file_name nfc file_choice filter_col) wb] }
      else
        let vRows := view_rows cols dcols dOne
        match build_formatted_excel nfc vRows file_choice filter_col with
        | Option.none => .crashed
        | some wb => .page {
            fileChoice := file_choice, cols := cols, rowsAll := rawRows,
            subjectChoices := filterable,
            fallbackWarned := (filterable_cols_raw ws cols).isEmpty,
            filterCol := filter_col, dfOneRows := dOne,
            displayCols := dcols, noDisplayWarned := false,
            viewCols := view_cols cols dcols, viewRows := vRows,
            previewRows := vRows,
            exports := [.excel (export_file_name nfc file_choice filter_col) wb] }

/-- One full run of the page script (src/app.py lines 224-349), with the
blocking I/O it performs in order: the data-directory create and list,
then, once a file is chosen, the pandas parse of that file, then the
openpyxl re-read of the same file for the row-174 sums. -/
def runApp (nfc : String → String) (inp : RunInput) : RunResult × List IOEvent :=
  let files := excel_files_sorted inp.dirEntries
  if files.isEmpty then (.stopNoFiles, [.makedirs DATA_DIR, .listdir DATA_DIR])
  else
    let file_choice := files.getD (inp.fileIdx % files.length) ""
    let selected_path := DATA_DIR ++ "/" ++ file_choice
    match inp.loadResult with
    | .error msg =>
      (.stopLoadError msg, [.makedirs DATA_DIR, .listdir DATA_DIR, .readPandas selected_path])
    | .ok (rawCols, rawRows) =>
      (afterLoad nfc inp.ws inp.subjectIdx file_choice rawCols rawRows,
       [.makedirs DATA_DIR, .listdir DATA_DIR,
        .readPandas selected_path, .readOpenpyxl selected_path])

/-! ## Observations and spec predicates -/

/-- Whether an I/O event is a read (by either library) of `path`. -/
def isReadOf (path : String) : IOEvent → Bool
  | .readPandas p => decide (p = path)
  | .readOpenpyxl p => decide (p = path)
  | _ => false

def emptyPage : Page :=
  { fileChoice := "", cols := [], rowsAll := [], subjectChoices := [],
    fallbackWarned := false, filterCol := "", dfOneRows := [], displayCols := [],
    noDisplayWarned := false, viewCols := [], viewRows := [], previewRows := [],
    exports := [] }

/-- The layout stated by claim C4 for the workbook
`build_formatted_excel` produces: the merged title in row 1, the nine
fixed headers in row 3 and nothing further there, and for each data row
the running number, the first three row values, and value-free weekday
columns. -/
def ExcelLayoutSpec (nfc : String → String) (rows : List (List PyVal))
    (fc sc : String) : Prop :=
  ∃ wb, build_formatted_excel nfc rows fc sc = some wb ∧
    wb.cellValue 1 1 =
      some (.str (normStr nfc (pyStrip (pyReplace fc ".xlsx" "" ++ " " ++ sc)))) ∧
    (1, 1, 1, 9) ∈ wb.merges ∧
    (∀ j, j < 9 → wb.cellValue 3 (j + 1) = some (.str (excelHeaders.getD j ""))) ∧
    (∀ c, 10 ≤ c → wb.cellValue 3 c = Option.none) ∧
    (∀ i, i < rows.length →
      wb.cellValue (4 + i) 1 = some (.num ⟨(i + 1 : Nat), 1⟩) ∧
      wb.cellValue (4 + i) 2 = some ((rows.getD i []).getD 0 .nan) ∧
      wb.cellValue (4 + i) 3 = some ((rows.getD i []).getD 1 .nan) ∧
      wb.cellValue (4 + i) 4 = some ((rows.getD i []).getD 2 .nan) ∧
      (∀ c, 5 ≤ c → c ≤ 9 → wb.cellValue (4 + i) c = Option.none))

/-- The two-phase behaviour stated by claim C2 for `find_col`: it is
`none` exactly when no candidate matches in either phase; the first
candidate with an exact lower-cased equality wins phase one and yields a
column with that lower-cased label; when phase one is empty the earliest
substring match in candidate-then-column order is returned. -/
def FindColSpec (cols cands : List String) : Prop :=
  (find_col cols cands = Option.none ↔
    ∀ cand ∈ cands, (∀ c ∈ cols, pyLower c ≠ pyLower cand) ∧
      ∀ c ∈ cols, containsCI c cand = false) ∧
  (∀ i, i < cands.length →
    (∃ c ∈ cols, pyLower c = pyLower (cands.getD i "")) →
    (∀ j, j < i → ∀ c ∈ cols, pyLower c ≠ pyLower (cands.getD j "")) →
    ∃ c, find_col cols cands = some c ∧ c ∈ cols ∧
      pyLower c = pyLower (cands.getD i "")) ∧
  ((∀ cand ∈ cands, ∀ c ∈ cols, pyLower c ≠ pyLower cand) →
    ∀ i j, i < cands.length → j < cols.length →
    containsCI (cols.getD j "") (cands.getD i "") = true →
    (∀ i', i' < i → ∀ c ∈ cols, containsCI c (cands.getD i' "") = false) →
    (∀ j', j' < j → containsCI (cols.getD j' "") (cands.getD i "") = false) →
    find_col cols cands = some (cols.getD j ""))

/-- What a rendered page shows and exports with respect to `is_one`
filtering (claim C1, amended by the 20-row preview cap of the
no-display-columns branch). -/
def FilterSpec (nfc : String → String) (p : Page) : Prop :=
  p.dfOneRows = p.rowsAll.filter (fun r => is_one (r.getD (pyColIdx p.cols p.filterCol) .nan)) ∧
  (∀ r, r ∈ p.dfOneRows ↔
    r ∈ p.rowsAll ∧ is_one (r.getD (pyColIdx p.cols p.filterCol) .nan) = true) ∧
  (p.noDisplayWarned = false →
    p.viewRows = view_rows p.cols (display_cols_of p.cols) p.dfOneRows ∧
    p.previewRows = p.viewRows) ∧
  (p.noDisplayWarned = true →
    p.viewRows = p.dfOneRows ∧ p.previewRows = p.dfOneRows.take 20) ∧
  (∃ wb, build_formatted_excel nfc p.viewRows p.fileChoice p.filterCol = some wb ∧
    p.exports = [.excel (export_file_name nfc p.fileChoice p.filterCol) wb])

/-- The invariant stated by claim C8 on the subject choices: outside the
fallback no offered column is a detected class/number/name column or has
row-174 value 0.0; in the fallback every dataframe column is offered. -/
def SubjectChoicesSpec (ws : Worksheet) (p : Page) : Prop :=
  (p.fallbackWarned = false →
    ∀ c ∈ p.subjectChoices,
      (∀ b ∈ blocked_cols p.cols, b ≠ c) ∧
      (∀ i, i < p.cols.length → p.cols.getD i "" = c →
        pyNumEq (cellNumOrZero (ws.cell TARGET_SUM_ROW (1 + i))) pyZero = false)) ∧
  (p.fallbackWarned = true → p.subjectChoices = p.cols)

/-! ## Concrete runs used by witnesses and counterexamples -/

/-- A well-formed roster interaction: four columns with the usual
Korean headers, two students, a row-174 sum that is nonzero only for
the subject column. -/
def wRoster : RunInput :=
  { dirEntries := ["roster.xlsx"], fileIdx := 0,
    loadResult := .ok
      ([.str "반", .str "번호", .str "이름", .str "수학"],
       [[.num ⟨1, 1⟩, .num ⟨3, 1⟩, .str "김", .num ⟨1, 1⟩],
        [.num ⟨1, 1⟩, .num ⟨4, 1⟩, .str "박", .num ⟨0, 1⟩]]),
    ws := ⟨fun r c => if r = 174 ∧ c = 4 then .num ⟨7, 1⟩ else .num ⟨0, 1⟩⟩,
    subjectIdx := 0 }

def wPage : Page := ((runApp id wRoster).1.pageOf).getD emptyPage

def wEvents : List IOEvent := (runApp id wRoster).2

/-- Twenty-one applied rows under headers that match none of the
class/number/name candidates, driving the script into its
no-display-columns branch. -/
def c1Rows : List (List PyVal) :=
  List.replicate 21 [.num ⟨1, 1⟩, .num ⟨2, 1⟩, .num ⟨3, 1⟩]

def c1Inp : RunInput :=
  { dirEntries := ["r.xlsx"], fileIdx := 0,
    loadResult := .ok ([.str "X", .str "Y", .str "Z"], c1Rows),
    ws := ⟨fun _ _ => .num ⟨5, 1⟩⟩, subjectIdx := 0 }

/-- Thirty-four header names whose last entry repeats the first. -/
def c9Headers : List String :=
  ["a", "b", "c", "d", "e", "f", "g", "h", "i", "j", "k", "l", "m",
   "n", "o", "p", "q", "r", "s", "t", "u", "v", "w", "x", "y", "z",
   "aa", "ab", "ac", "ad", "ae", "af", "ag", "a"]

def c9Sheet : Worksheet := ⟨fun _ _ => .noneV⟩

/-- An interaction whose spreadsheet load fails. -/
def errInp : RunInput :=
  { dirEntries := ["week1.xlsx"], fileIdx := 0,
    loadResult := .error "bad file",
    ws := ⟨fun _ _ => .noneV⟩, subjectIdx := 0 }

/-- A directory with no spreadsheet entries at all. -/
def noneInp : RunInput :=
  { dirEntries := ["readme.txt"], fileIdx := 0,
    loadResult := .error "unused",
    ws := ⟨fun _ _ => .noneV⟩, subjectIdx := 0 }

/-- An interaction whose stripped column labels collide: the raw
headers A, 수학 and "수학 " strip (src/app.py line 252) to A, 수학, 수학 —
reachable even though pandas mangles *raw* duplicates, because the
strip happens afterwards.  The row-174 cells hold 5, 0, 5, and the
user picks the non-duplicated first column, so the page renders. -/
def dupInp : RunInput :=
  { dirEntries := ["dup.xlsx"], fileIdx := 0,
    loadResult := .ok
      ([.str "A", .str "수학", .str "수학 "],
       [[.num ⟨1, 1⟩, .num ⟨1, 1⟩, .num ⟨1, 1⟩]]),
    ws := ⟨fun r c => if r = 174 ∧ c = 2 then .num ⟨0, 1⟩ else .num ⟨5, 1⟩⟩,
    subjectIdx := 0 }

def dupPage : Page := ((runApp id dupInp).1.pageOf).getD emptyPage

/-! ## Generic helper lemmas -/

theorem findSome?_of_first {β : Type} (f : String → Option β) :
    ∀ (l : List String) (i : Nat) (b : β), i < l.length → f (l.getD i "") = some b →
      (∀ j, j < i → f (l.getD j "") = Option.none) → l.findSome? f = some b := by
  intro l
  induction l with
  | nil => intro i b hi _ _; simp at hi
  | cons x t ih =>
    intro i b hi hf hprev
    cases i with
    | zero =>
      have hx : f x = some b := hf
      simp [List.findSome?_cons, hx]
    | succ i' =>
      have h0 : f x = Option.none := hprev 0 (Nat.succ_pos _)
      simp only [List.findSome?_cons, h0]
      exact ih i' b (by simpa using hi) hf (fun j hj => hprev (j + 1) (by omega))

theorem find?_of_first (p : String → Bool) :
    ∀ (l : List String) (j : Nat), j < l.length → p (l.getD j "") = true →
      (∀ j', j' < j → p (l.getD j' "") = false) → l.find? p = some (l.getD j "") := by
  intro l
  induction l with
  | nil => intro j hj _ _; simp at hj
  | cons x t ih =>
    intro j hj hp hprev
    cases j with
    | zero => exact List.find?_cons_of_pos _ hp
    | succ j' =>
      have h0 : p x = false := hprev 0 (Nat.succ_pos _)
      rw [List.find?_cons_of_neg _ (by simp [h0])]
      exact ih j' (by simpa using hj) hp (fun j'' hj'' => hprev (j'' + 1) (by omega))

theorem mem_dictInsertS {d : List (String × String)} {k v : String} {p : String × String}
    (hp : p ∈ dictInsertS d k v) : p ∈ d ∨ p = (k, v) := by
  unfold dictInsertS at hp
  split at hp
  · rcases List.mem_map.mp hp with ⟨q, hq, hEq⟩
    by_cases hk : q.1 = k
    · rw [if_pos hk] at hEq; right; exact hEq.symm
    · rw [if_neg hk] at hEq; left; exact hEq ▸ hq
  · rcases List.mem_append.mp hp with h | h
    · exact Or.inl h
    · right; simpa using h

theorem key_mem_dictInsertS_self {d : List (String × String)} (k v : String) :
    ∃ p ∈ dictInsertS d k v, p.1 = k := by
  unfold dictInsertS
  split
  · rename_i hany
    rcases List.any_eq_true.mp hany with ⟨q, hq, hqk⟩
    refine ⟨(k, v), List.mem_map.mpr ⟨q, hq, ?_⟩, rfl⟩
    rw [if_pos (by simpa using hqk)]
  · exact ⟨(k, v), List.mem_append.mpr (Or.inr (by simp)), rfl⟩

theorem key_mem_dictInsertS_mono {d : List (String × String)} {k0 : String} (k v : String)
    (h : ∃ p ∈ d, p.1 = k0) : ∃ p ∈ dictInsertS d k v, p.1 = k0 := by
  unfold dictInsertS
  obtain ⟨q, hq, hqk⟩ := h
  split
  · by_cases hk : q.1 = k
    · refine ⟨(k, v), List.mem_map.mpr ⟨q, hq, by rw [if_pos hk]⟩, ?_⟩
      simp [← hk, hqk]
    · exact ⟨q, List.mem_map.mpr ⟨q, hq, by rw [if_neg hk]⟩, hqk⟩
  · exact ⟨q, List.mem_append.mpr (Or.inl hq), hqk⟩

theorem mem_lowerColsFold :
    ∀ (cols : List String) (d : List (String × String)) (p : String × String),
      p ∈ cols.foldl (fun m c => dictInsertS m (pyLower c) c) d →
      p ∈ d ∨ ∃ c ∈ cols, p = (pyLower c, c) := by
  intro cols
  induction cols with
  | nil => intro d p hp; exact Or.inl hp
  | cons c t ih =>
    intro d p hp
    rw [List.foldl_cons] at hp
    rcases ih _ p hp with h | ⟨c', hc', hEq⟩
    · rcases mem_dictInsertS h with h' | h'
      · exact Or.inl h'
      · exact Or.inr ⟨c, by simp, h'⟩
    · exact Or.inr ⟨c', by simp [hc'], hEq⟩

theorem key_persist_lowerColsFold :
    ∀ (cols : List String) (d : List (String × String)) (k0 : String),
      (∃ p ∈ d, p.1 = k0) →
      ∃ p ∈ cols.foldl (fun m c => dictInsertS m (pyLower c) c) d, p.1 = k0 := by
  intro cols
  induction cols with
  | nil => intro d k0 h; exact h
  | cons x t ih =>
    intro d k0 h
    rw [List.foldl_cons]
    exact ih _ _ (key_mem_dictInsertS_mono _ _ h)

theorem key_mem_lowerColsFold :
    ∀ (cols : List String) (d : List (String × String)) (c : String), c ∈ cols →
      ∃ p ∈ cols.foldl (fun m c => dictInsertS m (pyLower c) c) d, p.1 = pyLower c := by
  intro cols
  induction cols with
  | nil => intro d c hc; simp at hc
  | cons x t ih =>
    intro d c hc
    rw [List.foldl_cons]
    rcases List.mem_cons.mp hc with h | h
    · subst h
      exact key_persist_lowerColsFold t _ _ (key_mem_dictInsertS_self _ _)
    · exact ih _ c h

theorem getD_mod_mem {l : List String} (h : l ≠ []) (k : Nat) :
    l.getD (k % l.length) "" ∈ l := by
  have hl : 0 < l.length := List.length_pos.mpr h
  have hlt : k % l.length < l.length := Nat.mod_lt _ hl
  rw [List.getD_eq_getElem _ _ hlt]
  exact List.getElem_mem hlt

theorem dictFindS_lowerColsDict_some {cols : List String} {k v : String}
    (h : dictFindS (lowerColsDict cols) k = some v) : v ∈ cols ∧ pyLower v = k := by
  unfold dictFindS at h
  cases hf : (lowerColsDict cols).find? (fun p => decide (p.1 = k)) with
  | none => rw [hf] at h; simp at h
  | some pr =>
    rw [hf] at h
    simp only [Option.map_some'] at h
    have hmem := List.mem_of_find?_eq_some hf
    have hkey : pr.1 = k := by simpa using List.find?_some hf
    rcases mem_lowerColsFold cols [] pr hmem with h0 | ⟨c, hc, hEq⟩
    · simp at h0
    · have hv : pr.2 = v := by simpa using h
      subst hv
      constructor
      · rw [hEq]; exact hc
      · rw [← hkey, hEq]

theorem dictFindS_lowerColsDict_none_iff {cols : List String} {k : String} :
    dictFindS (lowerColsDict cols) k = Option.none ↔ ∀ c ∈ cols, pyLower c ≠ k := by
  constructor
  · intro h c hc hlk
    unfold dictFindS at h
    cases hf : (lowerColsDict cols).find? (fun p => decide (p.1 = k)) with
    | some pr => rw [hf] at h; simp at h
    | none =>
      have hall := List.find?_eq_none.mp hf
      obtain ⟨p, hp, hpk⟩ := key_mem_lowerColsFold cols [] c hc
      exact hall p hp (by simp [hpk, hlk])
  · intro h
    unfold dictFindS
    cases hf : (lowerColsDict cols).find? (fun p => decide (p.1 = k)) with
    | none => simp
    | some pr =>
      exfalso
      have hmem := List.mem_of_find?_eq_some hf
      have hkey : pr.1 = k := by simpa using List.find?_some hf
      rcases mem_lowerColsFold cols [] pr hmem with h0 | ⟨c, hc, hEq⟩
      · simp at h0
      · exact h c hc (by rw [← hkey, hEq])

theorem mem_insertSorted {x y : String} :
    ∀ {l : List String}, y ∈ insertSorted x l ↔ y = x ∨ y ∈ l := by
  intro l
  induction l with
  | nil => simp [insertSorted]
  | cons z t ih =>
    unfold insertSorted
    split
    · simp
    · simp only [List.mem_cons, ih]
      tauto

theorem mem_sortStrs {y : String} : ∀ {l : List String}, y ∈ sortStrs l ↔ y ∈ l := by
  intro l
  induction l with
  | nil => simp [sortStrs]
  | cons x t ih =>
    unfold sortStrs
    rw [mem_insertSorted]
    simp [ih]

theorem listLe_total : ∀ a b : List Char, listLe a b = true ∨ listLe b a = true := by
  intro a
  induction a with
  | nil => intro b; left; rfl
  | cons x t ih =>
    intro b
    cases b with
    | nil => right; rfl
    | cons y u =>
      rcases lt_trichotomy x y with h | h | h
      · left; simp [listLe, h]
      · subst h
        rcases ih u with h' | h'
        · left; simp [listLe, h']
        · right; simp [listLe, h']
      · right; simp [listLe, h]

theorem listLe_trans :
    ∀ a b c : List Char, listLe a b = true → listLe b c = true → listLe a c = true := by
  intro a
  induction a with
  | nil => intro b c _ _; rfl
  | cons x t ih =>
    intro b c hab hbc
    cases b with
    | nil => simp [listLe] at hab
    | cons y u =>
      cases c with
      | nil => simp [listLe] at hbc
      | cons z v =>
        simp only [listLe, Bool.or_eq_true, Bool.and_eq_true, decide_eq_true_eq] at hab hbc ⊢
        rcases hab with h1 | ⟨h1e, h1le⟩
        · rcases hbc with h2 | ⟨h2e, h2le⟩
          · exact Or.inl (lt_trans h1 h2)
          · exact Or.inl (h2e ▸ h1)
        · rcases hbc with h2 | ⟨h2e, h2le⟩
          · exact Or.inl (h1e ▸ h2)
          · exact Or.inr ⟨h1e.trans h2e, ih u v h1le h2le⟩

theorem pyStrLe_total (a b : String) : pyStrLe a b = true ∨ pyStrLe b a = true :=
  listLe_total a.data b.data

theorem pyStrLe_trans {a b c : String} (h1 : pyStrLe a b = true) (h2 : pyStrLe b c = true) :
    pyStrLe a c = true :=
  listLe_trans a.data b.data c.data h1 h2

theorem pairwise_insertSorted {x : String} :
    ∀ {l : List String}, List.Pairwise (fun a b => pyStrLe a b = true) l →
      List.Pairwise (fun a b => pyStrLe a b = true) (insertSorted x l) := by
  intro l
  induction l with
  | nil => intro _; simp [insertSorted]
  | cons y t ih =>
    intro h
    rcases List.pairwise_cons.mp h with ⟨hy, ht⟩
    unfold insertSorted
    split
    · rename_i hxy
      refine List.pairwise_cons.mpr ⟨?_, h⟩
      intro a ha
      rcases List.mem_cons.mp ha with rfl | ha'
      · exact hxy
      · exact pyStrLe_trans hxy (hy a ha')
    · rename_i hxy
      refine List.pairwise_cons.mpr ⟨?_, ih ht⟩
      intro a ha
      rcases mem_insertSorted.mp ha with rfl | ha'
      · rcases pyStrLe_total a y with h' | h'
        · exact absurd h' hxy
        · exact h'
      · exact hy a ha'

theorem pairwise_sortStrs :
    ∀ (l : List String), List.Pairwise (fun a b => pyStrLe a b = true) (sortStrs l) := by
  intro l
  induction l with
  | nil => simp [sortStrs]
  | cons x t ih => exact pairwise_insertSorted ih

theorem find_col_eq (cols cands : List String) :
    find_col cols cands =
      (cands.findSome? (fun cand => dictFindS (lowerColsDict cols) (pyLower cand))).or
        (cands.findSome? (fun cand => cols.find? (fun c => containsCI c cand))) := by
  unfold find_col
  cases cands.findSome? (fun cand => dictFindS (lowerColsDict cols) (pyLower cand)) with
  | none => rfl
  | some c => rfl

theorem find_col_phase1_none_iff {cols cands : List String} :
    (cands.findSome? (fun cand => dictFindS (lowerColsDict cols) (pyLower cand))) = Option.none ↔
      ∀ cand ∈ cands, ∀ c ∈ cols, pyLower c ≠ pyLower cand := by
  rw [List.findSome?_eq_none_iff]
  constructor
  · intro h cand hc
    exact dictFindS_lowerColsDict_none_iff.mp (h cand hc)
  · intro h cand hc
    exact dictFindS_lowerColsDict_none_iff.mpr (h cand hc)

theorem find_col_phase2_none_iff {cols cands : List String} :
    (cands.findSome? (fun cand => cols.find? (fun c => containsCI c cand))) = Option.none ↔
      ∀ cand ∈ cands, ∀ c ∈ cols, containsCI c cand = false := by
  rw [List.findSome?_eq_none_iff]
  constructor
  · intro h cand hc c hcc
    have := List.find?_eq_none.mp (h cand hc) c hcc
    simpa using this
  · intro h cand hc
    exact List.find?_eq_none.mpr (fun c hcc => by simp [h cand hc c hcc])

/-- C2: column auto-detection is the two-phase fuzzy match the claim
describes: exact lower-cased equality first, trying candidates in order;
then the first case-insensitive substring match in candidate-priority
order, then column order; `none` exactly when both phases fail. -/
theorem find_col_two_phase : ∀ (cols cands : List String), FindColSpec cols cands := by
  intro cols cands
  refine ⟨?_, ?_, ?_⟩
  · rw [find_col_eq]
    constructor
    · intro h
      cases hx : cands.findSome? (fun cand => dictFindS (lowerColsDict cols) (pyLower cand)) with
      | some c => rw [hx] at h; simp [Option.or] at h
      | none =>
        rw [hx] at h
        have hy : (cands.findSome? (fun cand => cols.find? (fun c => containsCI c cand))) = Option.none := by
          simpa [Option.or] using h
        intro cand hc
        exact ⟨find_col_phase1_none_iff.mp hx cand hc, find_col_phase2_none_iff.mp hy cand hc⟩
    · intro h
      have hx : (cands.findSome? (fun cand => dictFindS (lowerColsDict cols) (pyLower cand))) = Option.none :=
        find_col_phase1_none_iff.mpr (fun cand hc => (h cand hc).1)
      have hy : (cands.findSome? (fun cand => cols.find? (fun c => containsCI c cand))) = Option.none :=
        find_col_phase2_none_iff.mpr (fun cand hc => (h cand hc).2)
      rw [hx, hy]
      rfl
  · intro i hi hex hmin
    obtain ⟨c0, hc0, hlc0⟩ := hex
    have hlook : dictFindS (lowerColsDict cols) (pyLower (cands.getD i "")) ≠ Option.none :=
      fun hnone => (dictFindS_lowerColsDict_none_iff.mp hnone) c0 hc0 hlc0
    obtain ⟨v, hv⟩ := Option.ne_none_iff_exists'.mp hlook
    have hphase1 :
        (cands.findSome? (fun cand => dictFindS (lowerColsDict cols) (pyLower cand))) = some v :=
      findSome?_of_first _ cands i v hi hv
        (fun j hj => dictFindS_lowerColsDict_none_iff.mpr (hmin j hj))
    have hvc := dictFindS_lowerColsDict_some hv
    refine ⟨v, ?_, hvc.1, hvc.2⟩
    rw [find_col_eq, hphase1]
    rfl
  · intro hno i j hi hj hcont hmini hminj
    have hphase1 :
        (cands.findSome? (fun cand => dictFindS (lowerColsDict cols) (pyLower cand))) = Option.none :=
      find_col_phase1_none_iff.mpr (fun cand hc => hno cand hc)
    have hfind : cols.find? (fun c => containsCI c (cands.getD i "")) = some (cols.getD j "") :=
      find?_of_first _ cols j hj hcont hminj
    have hphase2 :
        (cands.findSome? (fun cand => cols.find? (fun c => containsCI c cand))) = some (cols.getD j "") :=
      findSome?_of_first _ cands i _ hi hfind
        (fun i' hi' => List.find?_eq_none.mpr (fun c hcc h => by
          rw [hmini i' hi' c hcc] at h
          exact Bool.false_ne_true h))
    rw [find_col_eq, hphase1, hphase2]
    rfl

theorem dictInsert_of_fresh {d : List (String × PyNum)} {k : String} {v : PyNum}
    (h : ∀ p ∈ d, p.1 ≠ k) : dictInsert d k v = d ++ [(k, v)] := by
  unfold dictInsert
  rw [if_neg]
  simp only [List.any_eq_true, not_exists]
  intro p
  simp only [not_and]
  intro hp
  simp [h p hp]

theorem dict_foldRange_eq_map :
    ∀ (n : Nat) (keys : List String) (f : Nat → PyNum),
      n ≤ keys.length → (keys.take n).Nodup →
      (List.range n).foldl (fun d i => dictInsert d (keys.getD i "") (f i)) [] =
        (List.range n).map (fun i => (keys.getD i "", f i)) := by
  intro n
  induction n with
  | zero => intro keys f _ _; rfl
  | succ m ih =>
    intro keys f hlen hnd
    have hndm : (keys.take m).Nodup := by
      have hsub : (keys.take m).Sublist (keys.take (m + 1)) := by
        rw [show keys.take m = (keys.take (m + 1)).take m by
          rw [List.take_take]; congr 1; omega]
        exact List.take_sublist _ _
      exact List.Nodup.sublist hsub hnd
    rw [List.range_succ, List.foldl_append, List.foldl_cons, List.foldl_nil,
      ih keys f (by omega) hndm]
    rw [dictInsert_of_fresh ?_]
    · rw [List.map_append]
      simp
    · intro p hp
      rcases List.mem_map.mp hp with ⟨i, hi, hEq⟩
      have him : i < m := List.mem_range.mp hi
      have hm : m < keys.length := by omega
      have hilen : i < keys.length := by omega
      rw [← hEq]
      simp only
      rw [List.getD_eq_getElem _ _ hilen, List.getD_eq_getElem _ _ hm]
      intro hEq2
      have hib : i < (keys.take (m + 1)).length := by simp [List.length_take]; omega
      have hmb : m < (keys.take (m + 1)).length := by simp [List.length_take]; omega
      have hTake : (keys.take (m + 1))[i] = (keys.take (m + 1))[m] := by
        rw [List.getElem_take, List.getElem_take]
        exact hEq2
      have := (List.Nodup.getElem_inj_iff hnd).mp hTake
      omega

theorem read_row_characterization (ws : Worksheet) (target : Nat) (headers : List String)
    (hnd : headers.Nodup) :
    read_excel_row_values_for_headers ws "A:AG" target headers =
      (List.range (min headers.length 33)).map
        (fun i => (headers.getD i "", cellNumOrZero (ws.cell target (1 + i)))) := by
  have h1 : read_excel_row_values_for_headers ws "A:AG" target headers =
      (List.range (min headers.length 33)).foldl
        (fun d i => dictInsert d (headers.getD i "")
          (((List.range 33).map (fun k => cellNumOrZero (ws.cell target (1 + k)))).getD i pyZero))
        [] := rfl
  rw [h1, dict_foldRange_eq_map (min headers.length 33) headers _
    (Nat.min_le_left _ _)
    (List.Nodup.sublist (List.take_sublist _ _) hnd)]
  apply List.map_congr_left
  intro i hi
  have hi33 : i < 33 := by
    have := List.mem_range.mp hi
    omega
  congr 1
  have hlen : i < ((List.range 33).map (fun k => cellNumOrZero (ws.cell target (1 + k)))).length := by
    simpa using hi33
  rw [List.getD_eq_getElem _ _ hlen, List.getElem_map]
  congr 1
  simp

theorem dataCells_mem_bounds :
    ∀ (rows : List (List PyVal)) (start : Nat) (t : Nat × Nat × PyVal),
      t ∈ dataCells start rows →
      4 + start ≤ t.1 ∧ t.1 < 4 + start + rows.length ∧ 1 ≤ t.2.1 ∧ t.2.1 ≤ 4 := by
  intro rows
  induction rows with
  | nil => intro start t ht; simp [dataCells] at ht
  | cons row rest ih =>
    intro start t ht
    simp only [dataCells, List.mem_cons] at ht
    rcases ht with rfl | rfl | rfl | rfl | ht
    · refine ⟨by omega, by simp only [List.length_cons]; omega, by simp, by simp⟩
    · refine ⟨by omega, by simp only [List.length_cons]; omega, by simp, by simp⟩
    · refine ⟨by omega, by simp only [List.length_cons]; omega, by simp, by simp⟩
    · refine ⟨by omega, by simp only [List.length_cons]; omega, by simp, by simp⟩
    · obtain ⟨h1, h2, h3, h4⟩ := ih (start + 1) t ht
      refine ⟨by omega, by simp only [List.length_cons]; omega, h3, h4⟩

theorem dataCells_find? :
    ∀ (rows : List (List PyVal)) (start i : Nat), i < rows.length →
      (dataCells start rows).find?
          (fun t => decide (t.1 = 4 + (start + i)) && decide (t.2.1 = 1)) =
        some (4 + (start + i), 1, PyVal.num ⟨(start + i + 1 : Nat), 1⟩) ∧
      (dataCells start rows).find?
          (fun t => decide (t.1 = 4 + (start + i)) && decide (t.2.1 = 2)) =
        some (4 + (start + i), 2, (rows.getD i []).getD 0 .nan) ∧
      (dataCells start rows).find?
          (fun t => decide (t.1 = 4 + (start + i)) && decide (t.2.1 = 3)) =
        some (4 + (start + i), 3, (rows.getD i []).getD 1 .nan) ∧
      (dataCells start rows).find?
          (fun t => decide (t.1 = 4 + (start + i)) && decide (t.2.1 = 4)) =
        some (4 + (start + i), 4, (rows.getD i []).getD 2 .nan) := by
  intro rows
  induction rows with
  | nil => intro start i hi; simp at hi
  | cons row rest ih =>
    intro start i hi
    cases i with
    | zero =>
      simp only [Nat.add_zero, dataCells, List.getD_cons_zero]
      refine ⟨?_, ?_, ?_, ?_⟩
      · rw [List.find?_cons_of_pos _ (by simp)]
      · rw [List.find?_cons_of_neg _ (by simp), List.find?_cons_of_pos _ (by simp)]
      · rw [List.find?_cons_of_neg _ (by simp), List.find?_cons_of_neg _ (by simp),
          List.find?_cons_of_pos _ (by simp)]
      · rw [List.find?_cons_of_neg _ (by simp), List.find?_cons_of_neg _ (by simp),
          List.find?_cons_of_neg _ (by simp), List.find?_cons_of_pos _ (by simp)]
    | succ j =>
      have harith : start + (j + 1) = (start + 1) + j := by omega
      have hneq : ¬ (4 + start = 4 + (start + (j + 1))) := by omega
      obtain ⟨ih1, ih2, ih3, ih4⟩ := ih (start + 1) j (by simpa using hi)
      simp only [dataCells]
      refine ⟨?_, ?_, ?_, ?_⟩
      · rw [List.find?_cons_of_neg _ (by simp [hneq]), List.find?_cons_of_neg _ (by simp [hneq]),
          List.find?_cons_of_neg _ (by simp [hneq]), List.find?_cons_of_neg _ (by simp [hneq])]
        simp only [harith, List.getD_cons_succ]
        exact ih1
      · rw [List.find?_cons_of_neg _ (by simp [hneq]), List.find?_cons_of_neg _ (by simp [hneq]),
          List.find?_cons_of_neg _ (by simp [hneq]), List.find?_cons_of_neg _ (by simp [hneq])]
        simp only [harith, List.getD_cons_succ]
        exact ih2
      · rw [List.find?_cons_of_neg _ (by simp [hneq]), List.find?_cons_of_neg _ (by simp [hneq]),
          List.find?_cons_of_neg _ (by simp [hneq]), List.find?_cons_of_neg _ (by simp [hneq])]
        simp only [harith, List.getD_cons_succ]
        exact ih3
      · rw [List.find?_cons_of_neg _ (by simp [hneq]), List.find?_cons_of_neg _ (by simp [hneq]),
          List.find?_cons_of_neg _ (by simp [hneq]), List.find?_cons_of_neg _ (by simp [hneq])]
        simp only [harith, List.getD_cons_succ]
        exact ih4

/-- C4: the Excel export has the fixed layout: row 1 carries the title
(file name with ".xlsx" removed, a space, the subject) merged across
columns 1-9, row 3 carries exactly the nine headers 순번/반/번호/이름/월/화/수/목/금,
and data rows 4..3+n carry the running number, the row's first three
values, and value-free weekday columns 5-9.  The hypothesis keeps every
row at least three cells wide, which is what `row.iloc[2]` requires. -/
theorem build_formatted_excel_fixed_layout (nfc : String → String)
    (rows : List (List PyVal)) (fc sc : String) (h3 : ∀ r ∈ rows, 3 ≤ r.length) :
    ExcelLayoutSpec nfc rows fc sc := by
  have hguard : (rows.any (fun r => decide (r.length < 3))) = false := by
    rw [List.any_eq_false]
    intro r hr
    simp only [decide_eq_true_eq, not_lt]
    exact h3 r hr
  refine ⟨{ sheetTitle := "필터결과",
            cells := (1, 1, PyVal.str (normStr nfc (pyStrip (pyReplace fc ".xlsx" "" ++ " " ++ sc)))) ::
              ((List.range 9).map (fun j => (3, j + 1, PyVal.str (excelHeaders.getD j "")))
                ++ dataCells 0 rows),
            merges := [(1, 1, 1, 9)] }, ?_, rfl, by simp, ?_, ?_, ?_⟩
  · unfold build_formatted_excel
    rw [if_neg (by simp [hguard])]
  · intro j hj
    interval_cases j <;> rfl
  · intro c hc
    unfold XlsxModel.cellValue
    have hnone : ((1, 1, PyVal.str (normStr nfc (pyStrip (pyReplace fc ".xlsx" "" ++ " " ++ sc)))) ::
        ((List.range 9).map (fun j => (3, j + 1, PyVal.str (excelHeaders.getD j "")))
          ++ dataCells 0 rows)).find? (fun t => decide (t.1 = 3) && decide (t.2.1 = c)) =
        Option.none := by
      apply List.find?_eq_none.mpr
      intro t ht hpt
      simp only [Bool.and_eq_true, decide_eq_true_eq] at hpt
      rcases List.mem_cons.mp ht with rfl | ht'
      · omega
      · rcases List.mem_append.mp ht' with hh | hd
        · rcases List.mem_map.mp hh with ⟨j, hj, rfl⟩
          have : j < 9 := List.mem_range.mp hj
          simp only at hpt
          omega
        · have hb := dataCells_mem_bounds rows 0 t hd
          omega
    rw [hnone]
    rfl
  · intro i hi
    obtain ⟨f1, f2, f3, f4⟩ := dataCells_find? rows 0 i hi
    simp only [Nat.zero_add] at f1 f2 f3 f4
    have hhead_none : ∀ (co : Nat),
        ((List.range 9).map (fun j => (3, j + 1, PyVal.str (excelHeaders.getD j "")))).find?
          (fun t => decide (t.1 = 4 + i) && decide (t.2.1 = co)) = Option.none := by
      intro co
      apply List.find?_eq_none.mpr
      intro t ht hpt
      rcases List.mem_map.mp ht with ⟨j, hj, rfl⟩
      simp only [Bool.and_eq_true, decide_eq_true_eq] at hpt
      omega
    have main : ∀ (co : Nat),
        XlsxModel.cellValue
          { sheetTitle := "필터결과",
            cells := (1, 1, PyVal.str (normStr nfc (pyStrip (pyReplace fc ".xlsx" "" ++ " " ++ sc)))) ::
              ((List.range 9).map (fun j => (3, j + 1, PyVal.str (excelHeaders.getD j "")))
                ++ dataCells 0 rows),
            merges := [(1, 1, 1, 9)] } (4 + i) co =
        ((dataCells 0 rows).find? (fun t => decide (t.1 = 4 + i) && decide (t.2.1 = co))).map
          (fun t => t.2.2) := by
      intro co
      unfold XlsxModel.cellValue
      rw [List.find?_cons_of_neg _ (by simp; omega), List.find?_append, hhead_none co]
      rfl
    refine ⟨?_, ?_, ?_, ?_, ?_⟩
    · rw [main 1, f1]; rfl
    · rw [main 2, f2]; rfl
    · rw [main 3, f3]; rfl
    · rw [main 4, f4]; rfl
    · intro c hc5 hc9
      rw [main c]
      rw [List.find?_eq_none.mpr ?_]
      · rfl
      · intro t ht hpt
        have hb := dataCells_mem_bounds rows 0 t ht
        simp only [Bool.and_eq_true, decide_eq_true_eq] at hpt
        omega

theorem afterLoad_page {nfc : String → String} {ws : Worksheet} {subjectIdx : Nat}
    {file_choice : String} {rawCols : List PyVal} {rawRows : List (List PyVal)} {p : Page}
    (h : afterLoad nfc ws subjectIdx file_choice rawCols rawRows = .page p) :
    p.fileChoice = file_choice ∧
    p.cols = pandasCols rawCols ∧
    p.rowsAll = rawRows ∧
    p.subjectChoices = filterable_cols ws (pandasCols rawCols) ∧
    p.fallbackWarned = (filterable_cols_raw ws (pandasCols rawCols)).isEmpty ∧
    p.filterCol = (filterable_cols ws (pandasCols rawCols)).getD
      (subjectIdx % (filterable_cols ws (pandasCols rawCols)).length) "" ∧
    p.dfOneRows = df_one_rows (pandasCols rawCols) rawRows p.filterCol ∧
    ((p.noDisplayWarned = true ∧ display_cols_of (pandasCols rawCols) = [] ∧
      p.displayCols = [] ∧ p.viewCols = pandasCols rawCols ∧
      p.viewRows = p.dfOneRows ∧ p.previewRows = p.dfOneRows.take 20) ∨
     (p.noDisplayWarned = false ∧ p.displayCols = display_cols_of (pandasCols rawCols) ∧
      p.viewCols = view_cols (pandasCols rawCols) (display_cols_of (pandasCols rawCols)) ∧
      p.viewRows = view_rows (pandasCols rawCols) (display_cols_of (pandasCols rawCols))
        p.dfOneRows ∧
      p.previewRows = p.viewRows)) ∧
    (∃ wb, build_formatted_excel nfc p.viewRows file_choice p.filterCol = some wb ∧
      p.exports = [.excel (export_file_name nfc file_choice p.filterCol) wb]) := by
  simp only [afterLoad] at h
  split at h
  · exact RunResult.noConfusion h
  · split at h
    · exact RunResult.noConfusion h
    · split at h
      · rename_i hdisp
        split at h
        · exact RunResult.noConfusion h
        · rename_i wb heq
          injection h with h'
          subst h'
          refine ⟨rfl, rfl, rfl, rfl, rfl, rfl, rfl, ?_, ⟨wb, heq, rfl⟩⟩
          left
          exact ⟨rfl, List.isEmpty_iff.mp hdisp, rfl, rfl, rfl, rfl⟩
      · split at h
        · exact RunResult.noConfusion h
        · rename_i wb heq
          injection h with h'
          subst h'
          refine ⟨rfl, rfl, rfl, rfl, rfl, rfl, rfl, ?_, ⟨wb, heq, rfl⟩⟩
          right
          exact ⟨rfl, rfl, rfl, rfl, rfl⟩

theorem runApp_page {nfc : String → String} {inp : RunInput} {p : Page} {ev : List IOEvent}
    (h : runApp nfc inp = (.page p, ev)) :
    ∃ rawCols rawRows,
      inp.loadResult = .ok (rawCols, rawRows) ∧
      excel_files_sorted inp.dirEntries ≠ [] ∧
      p.fileChoice = (excel_files_sorted inp.dirEntries).getD
        (inp.fileIdx % (excel_files_sorted inp.dirEntries).length) "" ∧
      afterLoad nfc inp.ws inp.subjectIdx p.fileChoice rawCols rawRows = .page p ∧
      ev = [.makedirs DATA_DIR, .listdir DATA_DIR,
        .readPandas (DATA_DIR ++ "/" ++ p.fileChoice),
        .readOpenpyxl (DATA_DIR ++ "/" ++ p.fileChoice)] := by
  simp only [runApp] at h
  split at h
  · exact RunResult.noConfusion (congrArg Prod.fst h)
  · rename_i hne
    split at h
    · exact RunResult.noConfusion (congrArg Prod.fst h)
    · rename_i rawPair rawCols rawRows heqload
      have hres : afterLoad nfc inp.ws inp.subjectIdx
          ((excel_files_sorted inp.dirEntries).getD
            (inp.fileIdx % (excel_files_sorted inp.dirEntries).length) "") rawCols rawRows =
          .page p := congrArg Prod.fst h
      have hfc : p.fileChoice = (excel_files_sorted inp.dirEntries).getD
          (inp.fileIdx % (excel_files_sorted inp.dirEntries).length) "" :=
        (afterLoad_page hres).1
      refine ⟨rawCols, rawRows, heqload, ?_, hfc, ?_, ?_⟩
      · intro hnil
        rw [hnil] at hne
        exact hne rfl
      · rw [hfc]; exact hres
      · rw [hfc]; exact (congrArg Prod.snd h).symm

/-- C10: normalize_text is total and idempotent: None maps to the empty
string, every other value maps to the NFC normalization (the `nfc`
parameter) of its string form, and applying the function to its own
output changes nothing.  The two hypotheses are the Unicode guarantees
for NFC: idempotence and preservation of the empty string. -/
theorem normalize_text_total_idem (nfc : String → String)
    (hidem : ∀ t, nfc (nfc t) = nfc t) (hnil : nfc "" = "") :
    normalize_text nfc Option.none = "" ∧
    (∀ v : PyVal, normalize_text nfc (some v) = nfc (pyStr v)) ∧
    (∀ x : Option PyVal,
      normalize_text nfc (some (.str (normalize_text nfc x))) = normalize_text nfc x) := by
  refine ⟨rfl, fun v => rfl, fun x => ?_⟩
  cases x with
  | none =>
    show nfc (pyStr (.str "")) = ""
    simpa [pyStr] using hnil
  | some v =>
    show nfc (pyStr (.str (nfc (pyStr v)))) = nfc (pyStr v)
    simpa [pyStr] using hidem (pyStr v)

theorem normalize_text_total_idem_witness :
    normalize_text id Option.none = "" ∧
    normalize_text id (some (.str "수학")) = id (pyStr (.str "수학")) ∧
    normalize_text id (some (.str (normalize_text id (some (.str " a "))))) =
      normalize_text id (some (.str " a ")) :=
  ⟨(normalize_text_total_idem id (fun _ => rfl) rfl).1,
   (normalize_text_total_idem id (fun _ => rfl) rfl).2.1 _,
   (normalize_text_total_idem id (fun _ => rfl) rfl).2.2 _⟩

/-- C5: when the spreadsheet load fails the script stops with that
single error, after exactly one read attempt; the run result is the
stop (not a page), so no filtering, rendering or export happens, and
the trace shows no second attempt. -/
theorem load_error_stops (nfc : String → String) (inp : RunInput) (msg : String)
    (hfiles : excel_files_sorted inp.dirEntries ≠ [])
    (herr : inp.loadResult = .error msg) :
    runApp nfc inp = (.stopLoadError msg,
      [.makedirs DATA_DIR, .listdir DATA_DIR,
       .readPandas (DATA_DIR ++ "/" ++ (excel_files_sorted inp.dirEntries).getD
         (inp.fileIdx % (excel_files_sorted inp.dirEntries).length) "")]) := by
  simp only [runApp]
  rw [herr, if_neg (fun hemp => hfiles (List.isEmpty_iff.mp hemp))]

theorem load_error_stops_witness :
    excel_files_sorted errInp.dirEntries ≠ [] ∧
    errInp.loadResult = .error "bad file" ∧
    runApp id errInp = (.stopLoadError "bad file",
      [.makedirs DATA_DIR, .listdir DATA_DIR, .readPandas "./data/week1.xlsx"]) :=
  ⟨by decide, rfl, load_error_stops id errInp "bad file" (by decide) rfl⟩

/-- C6 (amended): a successful interaction performs exactly these I/O
actions in order: the data-directory create and list, then two reads of
the chosen file, one by pandas and one by openpyxl for the row-174
sums; in particular the chosen file is read twice, not once. -/
theorem interaction_reads_twice (nfc : String → String) (inp : RunInput) (p : Page)
    (ev : List IOEvent) (h : runApp nfc inp = (.page p, ev)) :
    ev = [.makedirs DATA_DIR, .listdir DATA_DIR,
      .readPandas (DATA_DIR ++ "/" ++ p.fileChoice),
      .readOpenpyxl (DATA_DIR ++ "/" ++ p.fileChoice)] ∧
    ev.countP (isReadOf (DATA_DIR ++ "/" ++ p.fileChoice)) = 2 := by
  obtain ⟨_, _, _, _, _, _, hev⟩ := runApp_page h
  refine ⟨hev, ?_⟩
  rw [hev]
  simp [List.countP_cons, List.countP_nil, isReadOf]

/-- C7: the roster choices are exactly the directory entries with an
".xlsx"/".xls" name (case-insensitively), in sorted (code-point
ascending) order, and an empty list stops the script with an error
before any file is touched. -/
theorem roster_file_listing (nfc : String → String) (inp : RunInput) :
    (∀ f, f ∈ excel_files_sorted inp.dirEntries ↔
      f ∈ inp.dirEntries ∧
        (endsWithSeq (pyLower f).data ".xlsx".data ||
          endsWithSeq (pyLower f).data ".xls".data) = true) ∧
    List.Pairwise (fun a b => pyStrLe a b = true) (excel_files_sorted inp.dirEntries) ∧
    (excel_files_sorted inp.dirEntries = [] →
      runApp nfc inp = (.stopNoFiles, [.makedirs DATA_DIR, .listdir DATA_DIR])) := by
  refine ⟨?_, pairwise_sortStrs _, ?_⟩
  · intro f
    unfold excel_files_sorted
    rw [mem_sortStrs]
    unfold excel_files
    exact List.mem_filter
  · intro hnil
    simp only [runApp]
    rw [if_pos (List.isEmpty_iff.mpr hnil)]

theorem roster_file_listing_witness :
    excel_files_sorted noneInp.dirEntries = [] ∧
    ("readme.txt" ∈ excel_files_sorted noneInp.dirEntries ↔
      "readme.txt" ∈ noneInp.dirEntries ∧
        (endsWithSeq (pyLower "readme.txt").data ".xlsx".data ||
          endsWithSeq (pyLower "readme.txt").data ".xls".data) = true) ∧
    runApp id noneInp = (.stopNoFiles, [.makedirs DATA_DIR, .listdir DATA_DIR]) :=
  ⟨by decide, (roster_file_listing id noneInp).1 "readme.txt",
   (roster_file_listing id noneInp).2.2 (by decide)⟩

/-- C1 (amended): on every rendered page, the rows kept by the filter
are exactly the dataframe rows whose cell in the chosen column
satisfies is_one; the exporter receives exactly their projection; the
preview shows them all when a display column was found, and only the
first 20 of them when none was found. -/
theorem filter_rows_amended (nfc : String → String) (inp : RunInput) (p : Page)
    (ev : List IOEvent) (h : runApp nfc inp = (.page p, ev)) : FilterSpec nfc p := by
  obtain ⟨rawCols, rawRows, _, _, _, hAfter, _⟩ := runApp_page h
  obtain ⟨hfc, hcols, hrows, _, _, hfcol, hdone, hdisp, hexp⟩ := afterLoad_page hAfter
  have h1 : p.dfOneRows =
      p.rowsAll.filter (fun r => is_one (r.getD (pyColIdx p.cols p.filterCol) .nan)) := by
    rw [hdone, hrows, hcols]
    rfl
  refine ⟨h1, ?_, ?_, ?_, ?_⟩
  · intro r
    rw [h1]
    exact List.mem_filter
  · intro hnd
    rcases hdisp with ⟨ht, _⟩ | ⟨_, _, _, hv, hp⟩
    · rw [hnd] at ht; cases ht
    · rw [hcols]
      exact ⟨hv, hp⟩
  · intro hnd
    rcases hdisp with ⟨_, _, _, _, hv, hp⟩ | ⟨hf, _⟩
    · exact ⟨hv, hp⟩
    · rw [hnd] at hf; cases hf
  · exact hexp

/-- C3 (amended): a rendered page offers exactly one download, the
formatted Excel workbook of the filtered view; no PDF download is
offered anywhere (build_pdf exists in the source but is never called). -/
theorem exports_excel_only (nfc : String → String) (inp : RunInput) (p : Page)
    (ev : List IOEvent) (h : runApp nfc inp = (.page p, ev)) :
    (∃ wb, build_formatted_excel nfc p.viewRows p.fileChoice p.filterCol = some wb ∧
      p.exports = [.excel (export_file_name nfc p.fileChoice p.filterCol) wb]) ∧
    (∀ e ∈ p.exports, e.isPdf = false) := by
  obtain ⟨rawCols, rawRows, _, _, _, hAfter, _⟩ := runApp_page h
  obtain ⟨_, _, _, _, _, _, _, _, hexp⟩ := afterLoad_page hAfter
  obtain ⟨wb, hwb, hexports⟩ := hexp
  refine ⟨⟨wb, hwb, hexports⟩, ?_⟩
  intro e he
  rw [hexports] at he
  rcases List.mem_singleton.mp he with rfl
  rfl

/-- C8 (amended): a rendered page never offers a detected
class/number/name column nor a column whose row-174 sum converts to
0.0 — unless the fallback fired, in which case all columns are
offered — provided the stripped column labels are pairwise distinct
(plus the at-most-33-columns cap of the A:AG read).  Distinctness is
needed: the strip of src/app.py line 252 can re-create duplicates that
pandas had mangled, and then the name-keyed row-174 sums let a later
duplicate's nonzero value mask an earlier zero, so a zero column is
offered — see the counterexample above the witness. -/
theorem subject_choices_sound (nfc : String → String) (inp : RunInput) (p : Page)
    (ev : List IOEvent) (h : runApp nfc inp = (.page p, ev))
    (hnd : p.cols.Nodup) (hlen : p.cols.length ≤ 33) :
    SubjectChoicesSpec inp.ws p := by
  obtain ⟨rawCols, rawRows, _, _, _, hAfter, _⟩ := runApp_page h
  obtain ⟨_, hcols, _, hchoices, hfall, _, _, _, _⟩ := afterLoad_page hAfter
  rw [hcols] at hnd hlen
  constructor
  · intro hfalse c hc
    have hraw_ne : (filterable_cols_raw inp.ws (pandasCols rawCols)).isEmpty = false := by
      rw [← hfall]; exact hfalse
    have hfc2 : filterable_cols inp.ws (pandasCols rawCols) =
        filterable_cols_raw inp.ws (pandasCols rawCols) := by
      unfold filterable_cols
      rw [if_neg (by simp [hraw_ne])]
    have hcmem : c ∈ filterable_cols_raw inp.ws (pandasCols rawCols) := by
      rw [← hfc2, ← hchoices]; exact hc
    unfold filterable_cols_raw at hcmem
    obtain ⟨hccols, hpred⟩ := List.mem_filter.mp hcmem
    simp only [Bool.and_eq_true, Bool.not_eq_true'] at hpred
    constructor
    · intro b hb
      rw [hcols] at hb
      have := List.any_eq_false.mp hpred.1 b hb
      simpa using this
    · intro i hi hgetD
      rw [hcols] at hi hgetD
      cases hval : pyNumEq (cellNumOrZero (inp.ws.cell TARGET_SUM_ROW (1 + i))) pyZero with
      | false => rfl
      | true =>
        exfalso
        have hmin : min (pandasCols rawCols).length 33 = (pandasCols rawCols).length :=
          Nat.min_eq_left hlen
        have hsum : sum_map_174 inp.ws (pandasCols rawCols) =
            (List.range (min (pandasCols rawCols).length 33)).map
              (fun i => ((pandasCols rawCols).getD i "",
                cellNumOrZero (inp.ws.cell TARGET_SUM_ROW (1 + i)))) :=
          read_row_characterization inp.ws TARGET_SUM_ROW (pandasCols rawCols) hnd
        have himem : ((pandasCols rawCols).getD i "",
            cellNumOrZero (inp.ws.cell TARGET_SUM_ROW (1 + i))) ∈
            sum_map_174 inp.ws (pandasCols rawCols) := by
          rw [hsum]
          exact List.mem_map.mpr ⟨i, List.mem_range.mpr (by rw [hmin]; exact hi), rfl⟩
        have hczero : c ∈ zero_sum_cols inp.ws (pandasCols rawCols) := by
          unfold zero_sum_cols
          apply List.mem_map.mpr
          refine ⟨((pandasCols rawCols).getD i "",
            cellNumOrZero (inp.ws.cell TARGET_SUM_ROW (1 + i))), ?_, hgetD⟩
          apply List.mem_filter.mpr
          exact ⟨himem, hval⟩
        have := List.any_eq_false.mp hpred.2 c hczero
        simp at this
  · intro htrue
    rw [hchoices, hcols]
    unfold filterable_cols
    rw [if_pos (by rw [← hfall]; exact htrue)]

/-- C9 (amended): with pairwise distinct header names, the function
maps the first min(len(headers), 33) headers, in order, to the numeric
conversion of the A:AG target-row cells — a total conversion with 0.0
substituted on failure — and no later header name occurs in the
result. -/
theorem read_excel_row_values_spec (ws : Worksheet) (target : Nat) (headers : List String)
    (hnd : headers.Nodup) :
    read_excel_row_values_for_headers ws "A:AG" target headers =
      (List.range (min headers.length 33)).map
        (fun i => (headers.getD i "", cellNumOrZero (ws.cell target (1 + i)))) ∧
    (∀ i, min headers.length 33 ≤ i → i < headers.length →
      ∀ pr ∈ read_excel_row_values_for_headers ws "A:AG" target headers,
        pr.1 ≠ headers.getD i "") := by
  have hchar := read_row_characterization ws target headers hnd
  refine ⟨hchar, ?_⟩
  intro i hmin hi pr hpr
  rw [hchar] at hpr
  rcases List.mem_map.mp hpr with ⟨j, hj, rfl⟩
  have hjlt : j < min headers.length 33 := List.mem_range.mp hj
  have hjlen : j < headers.length := lt_of_lt_of_le hjlt (Nat.min_le_left _ _)
  simp only
  rw [List.getD_eq_getElem _ _ hjlen, List.getD_eq_getElem _ _ hi]
  intro hEq
  have := (List.Nodup.getElem_inj_iff hnd).mp hEq
  omega

theorem read_excel_row_values_spec_witness :
    (["x", "y"] : List String).Nodup ∧
    read_excel_row_values_for_headers c9Sheet "A:AG" 5 ["x", "y"] =
      (List.range (min (["x", "y"] : List String).length 33)).map
        (fun i => ((["x", "y"] : List String).getD i "",
          cellNumOrZero (c9Sheet.cell 5 (1 + i)))) :=
  ⟨by decide, (read_excel_row_values_spec c9Sheet 5 ["x", "y"] (by decide)).1⟩

/-- C9 counterexample: out of 34 headers whose last name repeats the
first, the header at index 33 — beyond min(34, 33) — has its name
present in the result, against the claim's "headers beyond that
minimum are absent from the result". -/
theorem read_excel_row_values_dup_counterexample :
    c9Headers.length = 34 ∧
    c9Headers.getD 33 "" = "a" ∧
    (read_excel_row_values_for_headers c9Sheet "A:AG" 174 c9Headers).any
      (fun pr => decide (pr.1 = "a")) = true := by decide

/-- C1 counterexample: a roster where all 21 rows are marked 1 and no
class/number/name column exists renders a page whose preview holds only
the first 20 matching rows, so the preview is not exactly the set of
marked rows. -/
theorem preview_truncation_counterexample :
    (∀ r ∈ c1Rows, is_one (r.getD 0 .nan) = true) ∧
    c1Rows.length = 21 ∧
    ((runApp id c1Inp).1.pageOf).map
      (fun p => (p.rowsAll.length, p.dfOneRows.length, p.previewRows.length, p.noDisplayWarned)) =
      some (21, 21, 20, true) := by decide

theorem filter_rows_amended_witness :
    runApp id wRoster = (.page wPage, wEvents) ∧ FilterSpec id wPage :=
  ⟨by rfl, filter_rows_amended id wRoster wPage wEvents (by rfl)⟩

/-- C3 counterexample: a fully rendered page offers exactly one
download and it is the Excel one; no PDF byte stream is offered. -/
theorem pdf_missing_counterexample :
    ((runApp id wRoster).1.pageOf).map
      (fun p => (p.exports.map ExportEntry.isExcel, p.exports.map ExportEntry.isPdf)) =
      some ([true], [false]) := by decide

theorem exports_excel_only_witness :
    runApp id wRoster = (.page wPage, wEvents) ∧
    (∀ e ∈ wPage.exports, e.isPdf = false) :=
  ⟨by rfl, (exports_excel_only id wRoster wPage wEvents (by rfl)).2⟩

/-- C6 counterexample: a successful interaction reads the chosen file
twice (pandas, then openpyxl), not exactly once. -/
theorem one_shot_read_counterexample :
    ((runApp id wRoster).1.pageOf).isSome = true ∧
    (runApp id wRoster).2.countP (isReadOf "./data/roster.xlsx") = 2 := by decide

theorem interaction_reads_twice_witness :
    runApp id wRoster = (.page wPage, wEvents) ∧
    wEvents.countP (isReadOf (DATA_DIR ++ "/" ++ wPage.fileChoice)) = 2 :=
  ⟨by rfl, (interaction_reads_twice id wRoster wPage wEvents (by rfl)).2⟩

/-- C8 counterexample: with stripped columns A, 수학, 수학 (raw 수학 and
"수학 " collide after the strip of src/app.py line 252) and row-174
values 5, 0, 5, the name-keyed sums let the later duplicate's 5 mask
the earlier 0; the rendered page then offers 수학 — a column whose
spreadsheet row-174 value is 0.0 — outside the fallback, so the
claimed invariant is false on this reachable page. -/
theorem subject_choices_zero_counterexample :
    (runApp id dupInp).1.pageOf = some dupPage ∧
    dupPage.fallbackWarned = false ∧
    "수학" ∈ dupPage.subjectChoices ∧
    dupPage.cols.getD 1 "" = "수학" ∧
    pyNumEq (cellNumOrZero (dupInp.ws.cell TARGET_SUM_ROW (1 + 1))) pyZero = true ∧
    ¬ SubjectChoicesSpec dupInp.ws dupPage := by
  refine ⟨by decide, by decide, by decide, by decide, by decide, ?_⟩
  intro hspec
  have h1 := (hspec.1 (by decide) "수학" (by decide)).2 1 (by decide) (by decide)
  exact absurd h1 (by decide)

theorem subject_choices_sound_witness :
    runApp id wRoster = (.page wPage, wEvents) ∧ wPage.cols.Nodup ∧
    wPage.cols.length ≤ 33 ∧ SubjectChoicesSpec wRoster.ws wPage :=
  ⟨by rfl, by decide, by decide,
   subject_choices_sound id wRoster wPage wEvents (by rfl) (by decide) (by decide)⟩

theorem find_col_two_phase_witness :
    FindColSpec ["연구", "No심"] ["번호", "번", "No"] ∧
    find_col ["연구", "No심"] ["번호", "번", "No"] = some "No심" :=
  ⟨find_col_two_phase _ _,
   (find_col_two_phase ["연구", "No심"] ["번호", "번", "No"]).2.2
     (by decide) 2 1 (by decide) (by decide) (by decide) (by decide) (by decide)⟩

theorem build_formatted_excel_fixed_layout_witness :
    (∀ r ∈ [[PyVal.num ⟨1, 1⟩, PyVal.num ⟨3, 1⟩, PyVal.str "김"]], 3 ≤ r.length) ∧
    ExcelLayoutSpec id [[PyVal.num ⟨1, 1⟩, PyVal.num ⟨3, 1⟩, PyVal.str "김"]] "주간.xlsx" "수학" :=
  ⟨by decide, build_formatted_excel_fixed_layout id _ "주간.xlsx" "수학" (by decide)⟩
